import Mathlib

/-
Shallow embedding of the tag-uri library (`src/data.ts`, the parser module and
`src/mod.ts`).  The JavaScript regexes of the parser are translated into
deterministic character-list matchers; each definition's doc comment records the
regex it embeds.  For every regex the greedy/backtracking JS semantics collapses
to the deterministic scan implemented here, because in each regex every
quantified class is disjoint from the character that must follow it, so
backtracking can never produce a match that the greedy scan misses.
-/

/-- Character class of the JavaScript regex escape `\s`:
tab, LF, VT, FF, CR, space, NBSP, Ogham space, the U+2000..U+200A range,
LS, PS, NNBSP, MMSP, ideographic space and BOM. -/
def jsWhitespace (c : Char) : Bool :=
  c.toNat = 9 || c.toNat = 10 || c.toNat = 11 || c.toNat = 12 || c.toNat = 13 ||
  c.toNat = 32 || c.toNat = 160 || c.toNat = 5760 ||
  (8192 ≤ c.toNat && c.toNat ≤ 8202) ||
  c.toNat = 8232 || c.toNat = 8233 || c.toNat = 8239 || c.toNat = 8287 ||
  c.toNat = 12288 || c.toNat = 65279

/-- The tail of a DNS label after its first character, i.e. the part matched by
`[a-zA-Z0-9-]*[a-zA-Z0-9]` in `dnsNameRegex`: interior characters are
alphanumeric or hyphen, the final character is alphanumeric, and at least one
character is required (the trailing alphanumeric is not optional). -/
def labelTailOk : List Char → Bool
  | [] => false
  | [c] => c.isAlphanum
  | c :: rest => (c.isAlphanum || c = '-') && labelTailOk rest

/-- One DNS label as matched by `dnsNameRegex`, i.e.
`[a-zA-Z0-9]([a-zA-Z0-9-]*[a-zA-Z0-9])`.  Note that the inner group is not
optional, so every label accepted by the source regex has at least two
characters. -/
def labelOk : List Char → Bool
  | [] => false
  | c :: rest => c.isAlphanum && labelTailOk rest

/-- Split a character list on a separator character; mirrors how the anchored
regex `^(label)(\.(label))*$` decomposes its input at the literal dots (a label
can never contain a dot, so the decomposition is unique). -/
def splitOnChar (sep : Char) : List Char → List (List Char)
  | [] => [[]]
  | c :: rest =>
    match splitOnChar sep rest with
    | h :: t => if c = sep then [] :: h :: t else (c :: h) :: t
    | [] => [[c]]

/-- `dnsNameRegex`:
`^([a-zA-Z0-9]([a-zA-Z0-9-]*[a-zA-Z0-9]))(\.([a-zA-Z0-9]([a-zA-Z0-9-]*[a-zA-Z0-9])))*$`.
The whole string matches iff every dot-separated component is a full label. -/
def dnsNameOk (s : String) : Bool :=
  (splitOnChar '.' s.toList).all labelOk

/-- Character class `[a-zA-Z0-9-._]` of the local part in `emailAddressRegex`. -/
def emailLocalChar (c : Char) : Bool :=
  c.isAlphanum || c = '-' || c = '.' || c = '_'

/-- `emailAddressRegex`: `^[a-zA-Z0-9-._]+@(?<domain>\S+)$`.
The greedy local part is the maximal run of local characters (it cannot contain
`@`, so backtracking cannot move the `@`); the captured `domain` is everything
after the `@`, which must be non-empty and free of whitespace for the trailing
`\S+$` to reach the end of the string.  Returns the `domain` capture. -/
def emailAddressMatch (s : String) : Option String :=
  let l := s.toList
  let localPart := l.takeWhile emailLocalChar
  if localPart.isEmpty then none
  else
    match l.dropWhile emailLocalChar with
    | '@' :: domain =>
      if domain.isEmpty then none
      else if domain.any jsWhitespace then none
      else some (String.mk domain)
    | _ => none

/-- `dateRegex`: `^(?<year>\d{4})(-(?<month>\d{2})(-(?<day>\d{2}))?)?$`.
Exactly the shapes `YYYY`, `YYYY-MM` and `YYYY-MM-DD`; returns the `year`,
`month` and `day` captures (a capture of an unentered group is `none`). -/
def dateMatch (s : String) : Option (String × Option String × Option String) :=
  match s.toList with
  | [y1, y2, y3, y4] =>
    if y1.isDigit && y2.isDigit && y3.isDigit && y4.isDigit then
      some (String.mk [y1, y2, y3, y4], none, none)
    else none
  | [y1, y2, y3, y4, s1, m1, m2] =>
    if y1.isDigit && y2.isDigit && y3.isDigit && y4.isDigit && s1 = '-' &&
        m1.isDigit && m2.isDigit then
      some (String.mk [y1, y2, y3, y4], some (String.mk [m1, m2]), none)
    else none
  | [y1, y2, y3, y4, s1, m1, m2, s2, d1, d2] =>
    if y1.isDigit && y2.isDigit && y3.isDigit && y4.isDigit && s1 = '-' &&
        m1.isDigit && m2.isDigit && s2 = '-' && d1.isDigit && d2.isDigit then
      some (String.mk [y1, y2, y3, y4], some (String.mk [m1, m2]),
        some (String.mk [d1, d2]))
    else none
  | _ => none

/-- Single allowed character of `specificRegex`, i.e. the class
`[a-zA-Z0-9-._~!$&'()*+,;=:@\/?]` (note that `%` is NOT in this class, so a
percent sign can only occur as the start of a `%XX` escape). -/
def specificChar (c : Char) : Bool :=
  c.isAlphanum || c = '-' || c = '.' || c = '_' || c = '~' || c = '!' ||
  c = '$' || c = '&' || c = '\'' || c = '(' || c = ')' || c = '*' ||
  c = '+' || c = ',' || c = ';' || c = '=' || c = ':' || c = '@' ||
  c = '/' || c = '?'

/-- Hexadecimal digit, class `[0-9a-fA-F]` of the `%XX` escape. -/
def hexDigitChar (c : Char) : Bool :=
  c.isDigit || ('a' ≤ c && c ≤ 'f') || ('A' ≤ c && c ≤ 'F')

/-- Body of `specificRegex`:
`^([a-zA-Z0-9-._~!$&'()*+,;=:@\/?]|(%[0-9a-fA-F]{2}))*$`.
The two alternatives start with disjoint characters, so the scan is
deterministic. -/
def specificOkList : List Char → Bool
  | [] => true
  | '%' :: c1 :: c2 :: rest => hexDigitChar c1 && hexDigitChar c2 && specificOkList rest
  | '%' :: _ => false
  | c :: rest => specificChar c && specificOkList rest

/-- `specificRegex` as a whole-string predicate; `fragmentRegex` is the same
regex (`const fragmentRegex = specificRegex`). -/
def specificOk (s : String) : Bool := specificOkList s.toList

/-- `tagUriRegex`:
`^tag:(?<taggingEntity>[^:\s]*):(?<specific>[^#\s]*)(?:#?(?<fragment>\S*))` followed
by an optional literal backtick and `$`.
Deterministic form of the greedy match: `taggingEntity` is the maximal run of
non-colon non-whitespace characters after `tag:` (it cannot be extended or
shrunk because the run's characters can never match the following literal `:`);
`specific` is the maximal run of non-`#` non-whitespace characters after the
second colon; what remains must be empty (fragment capture `""`) or `#`
followed by a whitespace-free tail (the fragment capture).  The optional
backtick of the source regex can never consume a character, because the greedy
`\S*` always reaches a position followed by whitespace or the end of input.
Returns the `taggingEntity`, `specific` and `fragment` captures (the fragment
group always participates, so its capture is a string, possibly empty). -/
def tagUriMatch (input : String) : Option (String × String × String) :=
  match input.toList with
  | 't' :: 'a' :: 'g' :: ':' :: r =>
    let te := r.takeWhile (fun c => c != ':' && !jsWhitespace c)
    match r.dropWhile (fun c => c != ':' && !jsWhitespace c) with
    | ':' :: r2 =>
      let sp := r2.takeWhile (fun c => c != '#' && !jsWhitespace c)
      match r2.dropWhile (fun c => c != '#' && !jsWhitespace c) with
      | [] => some (String.mk te, String.mk sp, "")
      | '#' :: fr =>
        if fr.any jsWhitespace then none
        else some (String.mk te, String.mk sp, String.mk fr)
      | _ => none
    | _ => none
  | _ => none

/-- `taggingEntityRegex`: `^(?<authorityName>[\S]*),(?<date>[\S]*)$`.
Matches iff the string is whitespace-free and contains a comma; the greedy
`[\S]*` makes the split happen at the LAST comma.  Implemented by
`lastCommaSplit` below via `taggingEntityMatch`. -/
def lastCommaSplit : List Char → Option (List Char × List Char)
  | [] => none
  | c :: rest =>
    match lastCommaSplit rest with
    | some (a, d) => some (c :: a, d)
    | none => if c = ',' then some ([], rest) else none

/-- See `lastCommaSplit`: the `authorityName` and `date` captures of
`taggingEntityRegex`. -/
def taggingEntityMatch (s : String) : Option (String × String) :=
  let l := s.toList
  if l.any jsWhitespace then none
  else
    match lastCommaSplit l with
    | some (a, d) => some (String.mk a, String.mk d)
    | none => none

/-- The `authorityName` member of `TagUriData` (`data.ts`): a union of
`\x7bdnsName: string, emailAddress: null\x7d` and
`\x7bdnsName: null, emailAddress: string\x7d`. -/
inductive AuthorityName
  | dns (name : String)
  | email (address : String)
deriving DecidableEq, Repr

/-- The `date` member of `TagUriData` (`data.ts`): year, year-month or
year-month-day, each component a digit string. -/
inductive TagDate
  | y (year : String)
  | ym (year month : String)
  | ymd (year month day : String)
deriving DecidableEq, Repr

/-- `TagUriData` of `data.ts`. -/
structure TagUriData where
  authorityName : AuthorityName
  date : TagDate
  specific : String
  fragment : Option String
deriving DecidableEq, Repr

/-- `TagUriParsingError` as constructed at the throw sites of the parser and
asserted in the test suite: a kind (the TS `where` field, one of `tagUri`,
`taggingEntity`, `dnsName`, `emailAddress`, `date`, `specific`, `fragment`)
and the offending input segment (the TS `input` field). -/
structure TagUriParsingError where
  whereKind : String
  input : String
deriving DecidableEq, Repr

/-- `TagUriParser.parseAuthorityName`: if the input contains `@` it must match
the email grammar and its domain must additionally match the DNS grammar
(failure reports the domain substring); otherwise the whole input must match
the DNS grammar. -/
def parseAuthorityName (input : String) : Except TagUriParsingError AuthorityName :=
  if input.toList.contains '@' then
    match emailAddressMatch input with
    | none => .error ⟨"emailAddress", input⟩
    | some domain =>
      if dnsNameOk domain then .ok (.email input)
      else .error ⟨"emailAddress", domain⟩
  else if dnsNameOk input then .ok (.dns input)
  else .error ⟨"dnsName", input⟩

/-- JavaScript truthiness of a possibly-undefined string, as used by the
`if (month && day)` chain in `parseDate` and the getters of `mod.ts`:
truthy iff present and non-empty. -/
def jsTruthy : Option String → Bool
  | none => false
  | some s => !s.isEmpty

/-- `TagUriParser.parseDate`. -/
def parseDate (input : String) : Except TagUriParsingError TagDate :=
  match dateMatch input with
  | none => .error ⟨"date", input⟩
  | some (year, month, day) =>
    if jsTruthy month && jsTruthy day then
      .ok (.ymd year (month.getD "") (day.getD ""))
    else if jsTruthy month then .ok (.ym year (month.getD ""))
    else .ok (.y year)

/-- `TagUriParser.parseSpecific`. -/
def parseSpecific (input : String) : Except TagUriParsingError String :=
  if specificOk input then .ok input else .error ⟨"specific", input⟩

/-- `TagUriParser.parseFragment`: a zero-length capture becomes `null`;
otherwise the capture must match `fragmentRegex` (which is `specificRegex`). -/
def parseFragment (input : String) : Except TagUriParsingError (Option String) :=
  if input.length = 0 then .ok none
  else if specificOk input then .ok (some input)
  else .error ⟨"fragment", input⟩

/-- `TagUriParser.parse`: top-level match, tagging-entity split, then the four
field parsers in the evaluation order of the TS object literal
(authorityName, date, specific, fragment); the first failure aborts. -/
def TagUriParser.parse (input : String) : Except TagUriParsingError TagUriData :=
  match tagUriMatch input with
  | none => .error ⟨"tagUri", input⟩
  | some (taggingEntity, specific, fragment) =>
    match taggingEntityMatch taggingEntity with
    | none => .error ⟨"taggingEntity", taggingEntity⟩
    | some (authorityName, date) =>
      match parseAuthorityName authorityName with
      | .error e => .error e
      | .ok an =>
        match parseDate date with
        | .error e => .error e
        | .ok dt =>
          match parseSpecific specific with
          | .error e => .error e
          | .ok sp =>
            match parseFragment fragment with
            | .error e => .error e
            | .ok fr => .ok ⟨an, dt, sp, fr⟩

/-- The `authorityName` getter of `mod.ts` on the union value:
`if (dnsName) return dnsName; if (emailAddress) return emailAddress; throw new
UnreachableError(...)`.  JS truthiness means an empty string falls through, so
the getter returns `none` (= throws `UnreachableError`) exactly when the stored
string is empty. -/
def AuthorityName.resolve : AuthorityName → Option String
  | .dns n => if n = "" then none else some n
  | .email e => if e = "" then none else some e

/-- The `authorityName` getter of `TagUri` (`mod.ts`); `none` models the thrown
`UnreachableError`. -/
def TagUri.authorityName (d : TagUriData) : Option String :=
  d.authorityName.resolve

/-- The `dnsName` getter of `TagUri` (`mod.ts`). -/
def TagUri.dnsName (d : TagUriData) : Option String :=
  match d.authorityName with
  | .dns n => some n
  | .email _ => none

/-- The `emailAddress` getter of `TagUri` (`mod.ts`). -/
def TagUri.emailAddress (d : TagUriData) : Option String :=
  match d.authorityName with
  | .dns _ => none
  | .email e => some e

/-- The `date` getter of `mod.ts`:
`if (day) return year-month-day; if (month) return year-month; return year`,
with JS truthiness on the destructured fields. -/
def TagDate.str : TagDate → String
  | .y yr => yr
  | .ym yr mo => if mo = "" then yr else yr ++ "-" ++ mo
  | .ymd yr mo dy =>
    if dy = "" then (if mo = "" then yr else yr ++ "-" ++ mo)
    else yr ++ "-" ++ mo ++ "-" ++ dy

/-- The `date` getter of `TagUri` (`mod.ts`). -/
def TagUri.date (d : TagUriData) : String := d.date.str

/-- The `year` getter of `TagUri` (`mod.ts`). -/
def TagUri.year (d : TagUriData) : String :=
  match d.date with
  | .y yr => yr
  | .ym yr _ => yr
  | .ymd yr _ _ => yr

/-- The `month` getter of `TagUri` (`mod.ts`). -/
def TagUri.month (d : TagUriData) : Option String :=
  match d.date with
  | .y _ => none
  | .ym _ mo => some mo
  | .ymd _ mo _ => some mo

/-- The `day` getter of `TagUri` (`mod.ts`). -/
def TagUri.day (d : TagUriData) : Option String :=
  match d.date with
  | .y _ => none
  | .ym _ _ => none
  | .ymd _ _ dd => some dd

/-- The `taggingEntity` getter of `mod.ts`:
`${this.authorityName},${this.date}`; evaluating `this.authorityName` may throw
`UnreachableError`, modelled by `none`. -/
def TagUri.taggingEntity (d : TagUriData) : Option String :=
  match TagUri.authorityName d with
  | none => none
  | some a => some (a ++ "," ++ d.date.str)

/-- `TagUri.prototype.get` of `mod.ts`:
`tag:${taggingEntity}:${specific}` plus `#${fragment}` when `fragment` is
truthy (non-null AND non-empty).  `none` models a thrown `UnreachableError`
propagating out of the `taggingEntity` getter. -/
def TagUri.get (d : TagUriData) : Option String :=
  match TagUri.taggingEntity d with
  | none => none
  | some te =>
    let tag := "tag:" ++ te ++ ":" ++ d.specific
    match d.fragment with
    | some f => if f = "" then some tag else some (tag ++ "#" ++ f)
    | none => some tag

/-- Modelled from the spec: the `equals` function of `data.ts` is imported by
`mod.ts` but its body is not among the provided sources.  Per the spec it is a
structural equality comparing all leaf fields (dns/email name, year, month,
day, specific, fragment) across two instances, returning true iff every field
matches exactly, treating absent fields as equal only to absent. -/
def equals (a b : TagUriData) : Bool :=
  TagUri.dnsName a == TagUri.dnsName b &&
  TagUri.emailAddress a == TagUri.emailAddress b &&
  TagUri.year a == TagUri.year b &&
  TagUri.month a == TagUri.month b &&
  TagUri.day a == TagUri.day b &&
  a.specific == b.specific &&
  a.fragment == b.fragment

/-- The suffix `TagUri.get` appends for a stored fragment: `#` plus the
fragment exactly when the fragment is non-null and non-empty. -/
def fragSuffix : Option String → String
  | none => ""
  | some f => if f = "" then "" else "#" ++ f

/-- If `parseAuthorityName` succeeds, the `authorityName` getter on the result
resolves (the stored string is non-empty, so the JS-truthiness fallthrough to
`UnreachableError` cannot happen): an email input contains `@` and a DNS input
must satisfy `dnsNameOk`, which rejects the empty string. -/
theorem parseAuthorityName_ok_resolve (a : String) (an : AuthorityName)
    (h : parseAuthorityName a = .ok an) : an.resolve.isSome = true := by
  unfold parseAuthorityName at h
  by_cases hc : a.toList.contains '@' = true
  · simp only [hc, if_true] at h
    cases hm : emailAddressMatch a with
    | none => rw [hm] at h; simp at h
    | some dom =>
      rw [hm] at h
      simp at h
      by_cases hd : dnsNameOk dom = true
      · simp [hd] at h
        subst h
        have hne : ¬ a = "" := by
          intro he; subst he; exact absurd hc (by decide)
        simp [AuthorityName.resolve, hne]
      · simp [hd] at h
  · simp only [hc, if_false] at h
    by_cases hd : dnsNameOk a = true
    · simp [hd] at h
      subst h
      have hne : ¬ a = "" := by
        intro he; subst he; exact absurd hd (by decide)
      simp [AuthorityName.resolve, hne]
    · simp [hd] at h

/-- A successful `parseFragment` yields either `none` (the capture was empty)
or a non-empty string satisfying the fragment grammar. -/
theorem parseFragment_shape (x : String) (r : Option String)
    (h : parseFragment x = .ok r) :
    r = none ∨ ∃ f, r = some f ∧ f ≠ "" ∧ specificOk f = true := by
  unfold parseFragment at h
  by_cases hl : x.length = 0
  · rw [if_pos hl] at h
    exact Or.inl (Except.ok.inj h).symm
  · rw [if_neg hl] at h
    by_cases hs : specificOk x = true
    · simp [hs] at h
      refine Or.inr ⟨x, h.symm, ?_, hs⟩
      intro he; subst he; exact hl rfl
    · simp [hs] at h

/-- Decomposition of a successful `TagUriParser.parse`: the top-level match and
the tagging-entity split succeeded, and each field of the result was produced
by the corresponding field parser. -/
theorem parse_ok_parts (s : String) (d : TagUriData)
    (h : TagUriParser.parse s = .ok d) :
    ∃ te sp fr an dt,
      tagUriMatch s = some (te, sp, fr) ∧
      taggingEntityMatch te = some (an, dt) ∧
      parseAuthorityName an = .ok d.authorityName ∧
      parseDate dt = .ok d.date ∧
      parseSpecific sp = .ok d.specific ∧
      parseFragment fr = .ok d.fragment := by
  unfold TagUriParser.parse at h
  cases h1 : tagUriMatch s with
  | none => rw [h1] at h; simp at h
  | some tsf =>
    obtain ⟨te, sp, fr⟩ := tsf
    rw [h1] at h
    simp only [] at h
    cases h2 : taggingEntityMatch te with
    | none => rw [h2] at h; simp at h
    | some ad =>
      obtain ⟨an, dt⟩ := ad
      rw [h2] at h
      simp only [] at h
      cases h3 : parseAuthorityName an with
      | error e => rw [h3] at h; simp at h
      | ok av =>
        rw [h3] at h
        simp only [] at h
        cases h4 : parseDate dt with
        | error e => rw [h4] at h; simp at h
        | ok dv =>
          rw [h4] at h
          simp only [] at h
          cases h5 : parseSpecific sp with
          | error e => rw [h5] at h; simp at h
          | ok sv =>
            rw [h5] at h
            simp only [] at h
            cases h6 : parseFragment fr with
            | error e => rw [h6] at h; simp at h
            | ok fv =>
              rw [h6] at h
              have h7 : Except.ok (TagUriData.mk av dv sv fv) = Except.ok d := h
              simp only [Except.ok.injEq] at h7
              subst h7
              exact ⟨te, sp, fr, an, dt, rfl, h2, h3, h4, h5, h6⟩

/-- C1: the round-trip property fails on the code.  The input
`tag:example.com,2000:#` (bare trailing `#`) is accepted by `parse`, but
`get` returns `tag:example.com,2000:` — the bare `#` is lost, because
`parseFragment` turns the empty fragment capture into `null` and `get` only
appends `#` for a truthy fragment.  Hence `parse(s).get() == s` does not hold
for every accepted `s`. -/
theorem bareHash_roundtrip_fails :
    (TagUriParser.parse "tag:example.com,2000:#").map TagUri.get =
      .ok (some "tag:example.com,2000:") ∧
    "tag:example.com,2000:" ≠ "tag:example.com,2000:#" :=
  ⟨rfl, by decide⟩

/-- C2: fragment distinction as implemented.  `tag:example.com,2000:` gives
fragment `null` as claimed, and `tag:example.com,2000:#abc` gives `"abc"` as
claimed, but the bare trailing `#` of `tag:example.com,2000:#` ALSO gives
fragment `null`, not `""`: `tagUriRegex` consumes the `#` outside the fragment
capture group, so `parseFragment` receives the empty capture and maps it to
`null`.  This contradicts the claim and the doc example in `mod.ts`. -/
theorem fragment_distinction_code :
    (TagUriParser.parse "tag:example.com,2000:").map TagUriData.fragment = .ok none ∧
    (TagUriParser.parse "tag:example.com,2000:#").map TagUriData.fragment = .ok none ∧
    (TagUriParser.parse "tag:example.com,2000:#abc").map TagUriData.fragment =
      .ok (some "abc") :=
  ⟨rfl, rfl, rfl⟩

/-- C3 counterexample: `parse "tag:yaml.org,2002:int:extra"` does NOT fail with
a `tagUri` error; it succeeds, because `:` is permitted both by the
`specific` capture class `[^#\s]*` of `tagUriRegex` and by `specificRegex`
itself, so the extra `:`-delimited content is simply part of the specific. -/
theorem extra_colon_segments_accepted :
    TagUriParser.parse "tag:yaml.org,2002:int:extra" =
      .ok ⟨.dns "yaml.org", .y "2002", "int:extra", none⟩ := rfl

/-- C3 amended: an input with extra `:`-delimited trailing content after the
specific part parses successfully, the colons being absorbed into the specific
part (`:` is a valid specific character), and round-trips through `get`; in
particular `tag:yaml.org,2002:int:extra` yields specific `int:extra`. -/
theorem extra_colon_segments_in_specific :
    (TagUriParser.parse "tag:yaml.org,2002:int:extra").map TagUriData.specific =
      .ok "int:extra" ∧
    (TagUriParser.parse "tag:yaml.org,2002:int:extra").map TagUri.get =
      .ok (some "tag:yaml.org,2002:int:extra") :=
  ⟨rfl, rfl⟩

/-- C4: the claim's three example inputs all FAIL on the code with a `dnsName`
error on segment `a.com`, because `dnsNameRegex` makes the trailing
alphanumeric of a label non-optional, so every label needs at least two
characters and the single-character label `a` is rejected — contrary to
RFC 4151 (`DNSname = alphaNum *( alphaNum / "-" / "." )`), which the library
documents itself as implementing.  With a two-character first label the
claimed date-precision behaviour holds exactly. -/
theorem single_char_label_date_precision :
    TagUriParser.parse "tag:a.com,2001:x" = .error ⟨"dnsName", "a.com"⟩ ∧
    TagUriParser.parse "tag:a.com,2001-09:x" = .error ⟨"dnsName", "a.com"⟩ ∧
    TagUriParser.parse "tag:a.com,2001-09-15:x" = .error ⟨"dnsName", "a.com"⟩ ∧
    (TagUriParser.parse "tag:ab.com,2001:x").map
      (fun d => (TagUri.date d, TagUri.month d, TagUri.day d)) = .ok ("2001", none, none) ∧
    (TagUriParser.parse "tag:ab.com,2001-09:x").map
      (fun d => (TagUri.date d, TagUri.day d)) = .ok ("2001-09", none) ∧
    (TagUriParser.parse "tag:ab.com,2001-09-15:x").map TagUri.date = .ok "2001-09-15" :=
  ⟨rfl, rfl, rfl, rfl, rfl, rfl⟩

/-- C5: an empty specific part is valid: `parse "tag:yaml.org,2002:"` succeeds
(the URI ends right after the second colon) and the specific accessor returns
the empty string. -/
theorem empty_specific_valid :
    (TagUriParser.parse "tag:yaml.org,2002:").map TagUriData.specific = .ok "" := rfl

/-- C6: error locality.  `tag:yaml.org::int` fails with kind `taggingEntity`
and segment `yaml.org`; `tag:yaml.org,20-2:int` fails with kind `date` and
segment `20-2`; `tag:invalid@@name.com,2002:int` fails with kind
`emailAddress` and segment `@name.com` (the malformed domain substring, not
the whole email address). -/
theorem error_locality :
    TagUriParser.parse "tag:yaml.org::int" = .error ⟨"taggingEntity", "yaml.org"⟩ ∧
    TagUriParser.parse "tag:yaml.org,20-2:int" = .error ⟨"date", "20-2"⟩ ∧
    TagUriParser.parse "tag:invalid@@name.com,2002:int" =
      .error ⟨"emailAddress", "@name.com"⟩ :=
  ⟨rfl, rfl, rfl⟩

/-- C7 counterexample: on an instance whose stored fragment is the
empty string (present but empty), `get` does NOT append a bare `#`: the JS
`if (fragment)` check treats the empty string as falsy, so the result is
`tag:example.com,2000:` and not `tag:example.com,2000:#`. -/
theorem get_empty_fragment_drops_hash :
    TagUri.get ⟨.dns "example.com", .y "2000", "", some ""⟩ =
      some "tag:example.com,2000:" ∧
    some "tag:example.com,2000:" ≠ some ("tag:example.com,2000:" ++ "#" ++ "") :=
  ⟨rfl, by decide⟩

/-- C7 amended: for every `TagUriData` whose `authorityName` getter resolves
(so `get` does not signal `UnreachableError`), `get` returns
`tag:` + authorityName + `,` + date + `:` + specific, with `#` + fragment
appended exactly when the fragment is non-null AND non-empty (`fragSuffix`);
an empty-but-present fragment appends nothing. -/
theorem get_formula (d : TagUriData) (a : String)
    (h : TagUri.authorityName d = some a) :
    TagUri.get d = some ("tag:" ++ a ++ "," ++ d.date.str ++ ":" ++ d.specific ++
      fragSuffix d.fragment) := by
  unfold TagUri.get TagUri.taggingEntity
  rw [h]
  cases hf : d.fragment with
  | none => simp [fragSuffix, String.append_assoc, String.append_empty]
  | some f =>
    by_cases he : f = ""
    · subst he; simp [fragSuffix, String.append_assoc, String.append_empty]
    · simp [fragSuffix, he, String.append_assoc]

/-- Witness for C7's amended theorem at a concrete instance with an
empty-but-present fragment. -/
theorem get_formula_witness :
    TagUri.get ⟨.email "a@bc.de", .ym "2001" "09", "x", some ""⟩ =
      some ("tag:" ++ "a@bc.de" ++ "," ++ (TagDate.ym "2001" "09").str ++ ":" ++ "x" ++
        fragSuffix (some "")) :=
  get_formula ⟨.email "a@bc.de", .ym "2001" "09", "x", some ""⟩ "a@bc.de" rfl

/-- C8: two results of parsing the same accepted input are `equals`, and
`equals` is structural: it is true iff all leaf fields (dns name, email
address, year, month, day, specific, fragment) match exactly, absent fields
equal only to absent fields. -/
theorem parse_equals_structural :
    (∀ s a b, TagUriParser.parse s = .ok a → TagUriParser.parse s = .ok b →
      equals a b = true) ∧
    (∀ a b, equals a b = true ↔
      (TagUri.dnsName a = TagUri.dnsName b ∧
       TagUri.emailAddress a = TagUri.emailAddress b ∧
       TagUri.year a = TagUri.year b ∧ TagUri.month a = TagUri.month b ∧
       TagUri.day a = TagUri.day b ∧ a.specific = b.specific ∧
       a.fragment = b.fragment)) := by
  constructor
  · intro s a b h1 h2
    rw [h1] at h2
    have hab : a = b := Except.ok.inj h2
    subst hab
    simp [equals]
  · intro a b
    simp [equals, Bool.and_eq_true, beq_iff_eq, and_assoc]

/-- Witness for C8 at the concrete input `tag:blogger.com,1999:blog-555`. -/
theorem parse_equals_structural_witness :
    equals ⟨.dns "blogger.com", .y "1999", "blog-555", none⟩
      ⟨.dns "blogger.com", .y "1999", "blog-555", none⟩ = true :=
  parse_equals_structural.1 "tag:blogger.com,1999:blog-555" _ _ rfl rfl

/-- C9: for every `TagUri` obtained through `parse`, the `authorityName`
getter never reaches the `UnreachableError` branch (modelled by `none`): the
parser always stores a non-empty string in exactly one variant of the
authority-name union. -/
theorem parse_authorityName_total (s : String) (d : TagUriData)
    (h : TagUriParser.parse s = .ok d) : (TagUri.authorityName d).isSome = true := by
  obtain ⟨te, sp, fr, an, dt, _, _, h3, _, _, _⟩ := parse_ok_parts s d h
  exact parseAuthorityName_ok_resolve an d.authorityName h3

/-- Witness for C9 at the concrete input `tag:yaml.org,2002:int`. -/
theorem parse_authorityName_total_witness :
    (TagUri.authorityName ⟨.dns "yaml.org", .y "2002", "int", none⟩).isSome = true :=
  parse_authorityName_total "tag:yaml.org,2002:int" _ rfl

/-- C10: for every input accepted by `parse`, the resulting fragment field is
either `null` or a non-empty string matching the fragment grammar; `parse`
never produces an empty-string fragment, because `parseFragment` maps a
zero-length capture to `null`. -/
theorem parse_fragment_invariant (s : String) (d : TagUriData)
    (h : TagUriParser.parse s = .ok d) :
    d.fragment = none ∨ ∃ f, d.fragment = some f ∧ f ≠ "" ∧ specificOk f = true := by
  obtain ⟨te, sp, fr, an, dt, _, _, _, _, _, h6⟩ := parse_ok_parts s d h
  exact parseFragment_shape fr d.fragment h6

/-- Witness for C10 at the concrete input `tag:example.com,2000:#abc`. -/
theorem parse_fragment_invariant_witness :
    (⟨.dns "example.com", .y "2000", "", some "abc"⟩ : TagUriData).fragment = none ∨
    ∃ f, (⟨.dns "example.com", .y "2000", "", some "abc"⟩ : TagUriData).fragment = some f ∧
      f ≠ "" ∧ specificOk f = true :=
  parse_fragment_invariant "tag:example.com,2000:#abc" _ rfl
